import Mathlib

/-!
# PMU firmware power nodes (pm_node.h)

A shallow embedding of the node abstraction declared in
lib/sw_apps/zynqmp_pmufw/src/pm_node.h: the node and node-class records, the
class tags, the off-state test, the flag masks and the typed accessors, with
the properties of the specification stated over them.

Conventions: C unsigned integers are natural numbers; a store into a u8
object is followed by a reduction modulo 256, the complement of an unsigned
int mask is taken in 32 bits. Pointers are addresses (natural numbers, 0 is
NULL). A pointer to a read-only object whose content matters (the class of a
node) is embedded as the object itself.
-/

namespace Pmufw

/-! ## Machine integers and pointers -/

/-- Address of an object or of a function; 0 is NULL. -/
abbrev Ptr := Nat

/-- Number of values of a u8 object. -/
def U8_RANGE : Nat := 256

/-- All-ones value of a 32-bit unsigned int. -/
def U32_MAX : Nat := 4294967295

/-! ## Macros of pm_node.h -/

/-- Class tag of processor nodes (line 61). -/
def NODE_CLASS_PROC : Nat := 1
/-- Class tag of power nodes (line 62). -/
def NODE_CLASS_POWER : Nat := 2
/-- Class tag of slave nodes (line 63). -/
def NODE_CLASS_SLAVE : Nat := 3
/-- Class tag of PLL nodes (line 64). -/
def NODE_CLASS_PLL : Nat := 4

/-- Flag mask: the power of the node is locked (line 72). -/
def NODE_LOCKED_POWER_FLAG : Nat := 0x1
/-- Flag mask: the clocks of the node are locked (line 73). -/
def NODE_LOCKED_CLOCK_FLAG : Nat := 0x2
/-- Flag mask: idle completion was already signalled (line 74). -/
def NODE_IDLE_DONE : Nat := 0x4

/-! ## Structures of pm_node.h -/

/-- PmNodeClass (lines 138-150): eight function pointers, then the bucket
(an array of bucketSize node pointers), its size and the u8 class id. -/
structure PmNodeClass where
  clearConfig : Ptr
  construct : Ptr
  getWakeUpLatency : Ptr
  getPowerData : Ptr
  forceDown : Ptr
  init : Ptr
  isUsable : Ptr
  getPerms : Ptr
  bucket : List Ptr
  bucketSize : Nat
  id : Nat

/-- PmNode (lines 109-121). The member named class in the source is
nodeClass here (class is a reserved word); it is a const pointer to a
read-only class and is embedded as that class. powerInfo is the array the
pointer designates, powerInfoCnt its declared entry count. -/
structure PmNode where
  derived : Ptr
  nodeClass : PmNodeClass
  parent : Ptr
  clocks : Ptr
  powerInfo : List Nat
  powerInfoCnt : Nat
  latencyMarg : Nat
  name : String
  nodeId : Nat
  currState : Nat
  flags : Nat

/-- NODE_IS_PROC (line 66). -/
def NODE_IS_PROC (nodePtr : PmNode) : Bool :=
  NODE_CLASS_PROC == nodePtr.nodeClass.id

/-- NODE_IS_POWER (line 67). -/
def NODE_IS_POWER (nodePtr : PmNode) : Bool :=
  NODE_CLASS_POWER == nodePtr.nodeClass.id

/-- NODE_IS_SLAVE (line 68). -/
def NODE_IS_SLAVE (nodePtr : PmNode) : Bool :=
  NODE_CLASS_SLAVE == nodePtr.nodeClass.id

/-- NODE_IS_OFF (line 70): currState is promoted to unsigned int and masked
with 1U. -/
def NODE_IS_OFF (nodePtr : PmNode) : Bool :=
  0 == (nodePtr.currState &&& 1)

/-! ## Typed accessors (lines 158-169)

PmNodeGetDerived is declared on line 156 and defined outside the header; the
accessors are embedded over an arbitrary implementation of it, the parameter
getDerived. The class macro is an unsigned int converted to the u8 parameter
nodeClass. -/

/-- PmNodeGetSlave (lines 158-160). -/
def PmNodeGetSlave {α : Type} (getDerived : Nat → Nat → α) (nodeId : Nat) : α :=
  getDerived (NODE_CLASS_SLAVE % U8_RANGE) nodeId

/-- PmNodeGetPower (lines 161-163). -/
def PmNodeGetPower {α : Type} (getDerived : Nat → Nat → α) (nodeId : Nat) : α :=
  getDerived (NODE_CLASS_POWER % U8_RANGE) nodeId

/-- PmNodeGetProc (lines 164-166). -/
def PmNodeGetProc {α : Type} (getDerived : Nat → Nat → α) (nodeId : Nat) : α :=
  getDerived (NODE_CLASS_PROC % U8_RANGE) nodeId

/-- PmNodeGetPll (lines 167-169). -/
def PmNodeGetPll {α : Type} (getDerived : Nat → Nat → α) (nodeId : Nat) : α :=
  getDerived (NODE_CLASS_PLL % U8_RANGE) nodeId

/-! ## The flags member

pm_node.h gives the three masks and the u8 member flags (line 120); a flag is
read, set and cleared with the C operators on that member. -/

/-- The three flags that have a mask in pm_node.h (lines 72-74). -/
inductive NodeFlag where
  | lockedPower
  | lockedClock
  | idleDone
  deriving DecidableEq, Fintype, Repr

/-- Mask of a flag: the macro of lines 72-74 that names it. -/
def NodeFlag.mask : NodeFlag → Nat
  | .lockedPower => NODE_LOCKED_POWER_FLAG
  | .lockedClock => NODE_LOCKED_CLOCK_FLAG
  | .idleDone => NODE_IDLE_DONE

/-- Observed value of a flag, the C expression flags & mask. -/
def flagGet (flags : Nat) (x : NodeFlag) : Nat :=
  flags &&& x.mask

/-- Setting a flag, the C statement flags |= mask; the store into the u8
member reduces modulo 256. -/
def flagSet (flags : Nat) (x : NodeFlag) : Nat :=
  (flags ||| x.mask) % U8_RANGE

/-- Clearing a flag, the C statement flags &= ~mask; the mask is an unsigned
int, so its complement is taken in 32 bits, and the store into the u8 member
reduces modulo 256. -/
def flagClear (flags : Nat) (x : NodeFlag) : Nat :=
  (flags &&& (U32_MAX ^^^ x.mask)) % U8_RANGE

/-- Setting the flags of a list one after the other, first element first. -/
def flagSetAll (flags : Nat) (order : List NodeFlag) : Nat :=
  order.foldl flagSet flags

/-- Bitwise OR of the masks of the flags that belong to a subset. -/
def subsetMask (s : Finset NodeFlag) : Nat :=
  ((([NodeFlag.lockedPower, NodeFlag.lockedClock, NodeFlag.idleDone] : List NodeFlag).filter
    (fun x => decide (x ∈ s))).map NodeFlag.mask).foldl (fun acc m => acc ||| m) 0

/-! ## The capability table of a class -/

/-- The function-pointer members of PmNodeClass (lines 139-146), in
declaration order. -/
inductive PmNodeClassOp where
  | clearConfig
  | construct
  | getWakeUpLatency
  | getPowerData
  | forceDown
  | init
  | isUsable
  | getPerms
  deriving DecidableEq, Fintype, Repr

/-- The function pointer a class holds for an operation. -/
def PmNodeClass.op (c : PmNodeClass) : PmNodeClassOp → Ptr
  | .clearConfig => c.clearConfig
  | .construct => c.construct
  | .getWakeUpLatency => c.getWakeUpLatency
  | .getPowerData => c.getPowerData
  | .forceDown => c.forceDown
  | .init => c.init
  | .isUsable => c.isUsable
  | .getPerms => c.getPerms

/-- A class seen as its capability table next to the three members that are
not function pointers. -/
def PmNodeClass.split (c : PmNodeClass) : (PmNodeClassOp → Ptr) × List Ptr × Nat × Nat :=
  (c.op, c.bucket, c.bucketSize, c.id)

/-! ## Power data and the registry

The functions of this section are declared in pm_node.h (lines 155, 156,
177) and defined in pm_node.c, which is not part of the sources at hand. -/

/-- Error kinds of the specification (section 7). -/
inductive PmError where
  | NotFound
  | InvalidState
  | Unsupported
  | OperationFailed
  deriving DecidableEq, Repr

/-- Modelled from the spec: the body of PmNodeGetPowerInfo (declared on line
177, defined in the absent pm_node.c). Section 4.2, getPowerData: returns the
power-consumption value associated with currState by indexing powerInfo, and
signals an error if currState is outside the bounds of the table; sections 7
and 8 name the error InvalidState. The result is the status or value,
together with the list of powerInfo indices that were read. -/
def PmNodeGetPowerInfo (node : PmNode) : Except PmError Nat × List Nat :=
  if node.currState < node.powerInfoCnt then
    (Except.ok (node.powerInfo.getD node.currState 0), [node.currState])
  else
    (Except.error PmError.InvalidState, [])

/-- Modelled from the spec: the search of one class bucket for a node id
(part of the absent pm_node.c). The bucket holds bucketSize node pointers;
mem gives the node a pointer designates. The first entry whose node has the
id is the result. -/
def bucketFind (mem : Ptr → Option PmNode) (c : PmNodeClass) (nodeId : Nat) : Option Ptr :=
  (c.bucket.take c.bucketSize).find? fun p =>
    match mem p with
    | some n => n.nodeId == nodeId
    | none => false

/-- Modelled from the spec: the body of PmGetNodeById (declared on line 155,
defined in the absent pm_node.c). Section 4.1, lookupById: a bucketed search
across all class buckets that returns the node reference or NotFound (none
here, NULL in C). -/
def PmGetNodeById (classes : List PmNodeClass) (mem : Ptr → Option PmNode)
    (nodeId : Nat) : Option Ptr :=
  classes.findSome? fun c => bucketFind mem c nodeId

/-- Modelled from the spec: the body of PmNodeGetDerived (declared on line
156, defined in the absent pm_node.c). Section 4.1,
lookupDerivedByClassAndId: restricts the search to the bucket of the class
with the given tag, then resolves the derived payload of the node found;
NotFound (none here, NULL in C) when the id is absent or no class with that
tag holds it. -/
def PmNodeGetDerived (classes : List PmNodeClass) (mem : Ptr → Option PmNode)
    (nodeClass nodeId : Nat) : Option Ptr :=
  match classes.find? (fun c => c.id == nodeClass) with
  | none => none
  | some c =>
    match bucketFind mem c nodeId with
    | none => none
    | some p => (mem p).map PmNode.derived

/-! ## Sample objects used by the concrete instances -/

/-- A class with the given tag and bucket and null function pointers. -/
def sampleClass (tag : Nat) (bucket : List Ptr) : PmNodeClass :=
  ⟨0, 0, 0, 0, 0, 0, 0, 0, bucket, bucket.length, tag⟩

/-- A node of the given class with the given id, state and derived pointer,
and a four-entry power table. -/
def sampleNode (c : PmNodeClass) (nodeId currState : Nat) (derived : Ptr) : PmNode :=
  ⟨derived, c, 0, 0, [10, 20, 30, 40], 4, 0, "", nodeId, currState, 0⟩

/-- Processor class of the sample registry: one node, at address 100. -/
def sampleProcClass : PmNodeClass := sampleClass NODE_CLASS_PROC [100]

/-- Power class of the sample registry: one node, at address 200. -/
def samplePowerClass : PmNodeClass := sampleClass NODE_CLASS_POWER [200]

/-- The two classes of the sample registry. -/
def sampleClasses : List PmNodeClass := [sampleProcClass, samplePowerClass]

/-- Node memory of the sample registry: processor node 1 at address 100,
power node 2 at address 200. -/
def sampleMem : Ptr → Option PmNode := fun p =>
  if p = 100 then some (sampleNode sampleProcClass 1 1 1000)
  else if p = 200 then some (sampleNode samplePowerClass 2 0 2000)
  else none

/-! ## Theorems -/

/-- The off test reads bit 0 only (helper): it is the parity test. -/
theorem NODE_IS_OFF_eq_even (n : PmNode) :
    NODE_IS_OFF n = decide (n.currState % 2 = 0) := by
  unfold NODE_IS_OFF
  rw [Nat.and_one_is_mod]
  rcases Nat.mod_two_eq_zero_or_one n.currState with h | h <;> simp [h]

/-- C1: for every node, whatever 8-bit state code its currState holds,
NODE_IS_OFF is true exactly when bit 0 of currState is 0 (the code is even),
and any node whose state code has the same bit 0 gets the same answer, so no
other bit of the state code (and no other member) influences the result. -/
theorem node_is_off_iff_bit0_clear (n : PmNode) :
    (NODE_IS_OFF n = true ↔ n.currState.testBit 0 = false) ∧
    (NODE_IS_OFF n = true ↔ n.currState % 2 = 0) ∧
    (∀ m : PmNode, m.currState.testBit 0 = n.currState.testBit 0 →
      NODE_IS_OFF m = NODE_IS_OFF n) := by
  have hbit : ∀ k : Nat, k.testBit 0 = decide (k % 2 = 1) := fun k => Nat.testBit_zero k
  refine ⟨?_, ?_, ?_⟩
  · rw [NODE_IS_OFF_eq_even, hbit]
    rcases Nat.mod_two_eq_zero_or_one n.currState with h | h <;> simp [h]
  · rw [NODE_IS_OFF_eq_even]
    simp
  · intro m hm
    rw [NODE_IS_OFF_eq_even, NODE_IS_OFF_eq_even]
    rw [hbit, hbit] at hm
    rcases Nat.mod_two_eq_zero_or_one n.currState with h | h <;>
      rcases Nat.mod_two_eq_zero_or_one m.currState with h2 | h2 <;> simp_all

/-- Bits of a flags value after setting a flag. -/
theorem testBit_flagSet (f : Nat) (x : NodeFlag) (i : Nat) :
    (flagSet f x).testBit i = (decide (i < 8) && (f.testBit i || x.mask.testBit i)) := by
  unfold flagSet U8_RANGE
  rw [show (256 : Nat) = 2 ^ 8 from rfl, Nat.testBit_mod_two_pow, Nat.testBit_or]

/-- Bits of a flags value after clearing a flag. -/
theorem testBit_flagClear (f : Nat) (x : NodeFlag) (i : Nat) :
    (flagClear f x).testBit i = (decide (i < 8) && (f.testBit i && !x.mask.testBit i)) := by
  unfold flagClear U8_RANGE U32_MAX
  rw [show (256 : Nat) = 2 ^ 8 from rfl, Nat.testBit_mod_two_pow, Nat.testBit_and,
    Nat.testBit_xor, show (4294967295 : Nat) = 2 ^ 32 - 1 from rfl, Nat.testBit_two_pow_sub_one]
  by_cases h8 : i < 8
  · have h32 : i < 32 := by omega
    simp [h8, h32]
  · simp [h8]

/-- Bits of an 8-bit value above bit 7 are clear. -/
theorem testBit_u8_high (f : Nat) (hf : f < U8_RANGE) (i : Nat) (hi : ¬ i < 8) :
    f.testBit i = false := by
  apply Nat.testBit_lt_two_pow
  have h256 : (2 : Nat) ^ 8 ≤ 2 ^ i := Nat.pow_le_pow_right (by decide) (by omega)
  unfold U8_RANGE at hf
  omega

/-- Each mask is one bit, and distinct flags have distinct bits. -/
theorem mask_testBit (x : NodeFlag) (i : Nat) :
    x.mask.testBit i =
      decide (i = match x with | .lockedPower => 0 | .lockedClock => 1 | .idleDone => 2) := by
  cases x
  · show (2 ^ 0 : Nat).testBit i = _
    rw [Nat.testBit_two_pow]; simp [eq_comm]
  · show (2 ^ 1 : Nat).testBit i = _
    rw [Nat.testBit_two_pow]; simp [eq_comm]
  · show (2 ^ 2 : Nat).testBit i = _
    rw [Nat.testBit_two_pow]; simp [eq_comm]

/-- Distinct flags share no mask bit. -/
theorem mask_disjoint (x y : NodeFlag) (hxy : x ≠ y) (i : Nat)
    (hy : y.mask.testBit i = true) : x.mask.testBit i = false := by
  rw [mask_testBit] at hy ⊢
  cases x <;> cases y <;> simp_all

/-- C2: for every 8-bit flags value f and every two distinct flags X, Y among
power-locked, clock-locked and idle-done, setting X and clearing X both leave
the observed value of Y unchanged, and leave every bit of f outside the mask
of X unchanged. -/
theorem flag_set_clear_leave_others (f : Nat) (x y : NodeFlag)
    (hf : f < U8_RANGE) (hxy : x ≠ y) :
    flagGet (flagSet f x) y = flagGet f y ∧
    flagGet (flagClear f x) y = flagGet f y ∧
    (∀ i : Nat, x.mask.testBit i = false →
      (flagSet f x).testBit i = f.testBit i ∧ (flagClear f x).testBit i = f.testBit i) := by
  have hout : ∀ i : Nat, x.mask.testBit i = false →
      (flagSet f x).testBit i = f.testBit i ∧ (flagClear f x).testBit i = f.testBit i := by
    intro i hi
    rw [testBit_flagSet, testBit_flagClear, hi]
    by_cases h8 : i < 8
    · simp [h8]
    · simp [h8, testBit_u8_high f hf i h8]
  refine ⟨?_, ?_, hout⟩
  · apply Nat.eq_of_testBit_eq
    intro i
    unfold flagGet
    rw [Nat.testBit_and, Nat.testBit_and]
    cases hy : y.mask.testBit i
    · simp
    · rw [(hout i (mask_disjoint x y hxy i hy)).1]
  · apply Nat.eq_of_testBit_eq
    intro i
    unfold flagGet
    rw [Nat.testBit_and, Nat.testBit_and]
    cases hy : y.mask.testBit i
    · simp
    · rw [(hout i (mask_disjoint x y hxy i hy)).2]

/-- C2 at a concrete input: flags 0x05, setting and clearing clock-locked
keeps idle-done as it was. -/
theorem flag_set_clear_leave_others_witness :
    flagGet (flagSet 5 NodeFlag.lockedClock) NodeFlag.idleDone = 4 ∧
    flagGet (flagClear 5 NodeFlag.lockedClock) NodeFlag.idleDone = 4 :=
  ⟨(flag_set_clear_leave_others 5 NodeFlag.lockedClock NodeFlag.idleDone
      (by decide) (by decide)).1,
   (flag_set_clear_leave_others 5 NodeFlag.lockedClock NodeFlag.idleDone
      (by decide) (by decide)).2.1⟩

/-- Setting two flags commutes, on any value. -/
theorem flagSet_comm (z : Nat) (a b : NodeFlag) :
    flagSet (flagSet z a) b = flagSet (flagSet z b) a := by
  apply Nat.eq_of_testBit_eq
  intro i
  simp only [testBit_flagSet]
  cases decide (i < 8) <;> cases z.testBit i <;> cases a.mask.testBit i <;>
    cases b.mask.testBit i <;> rfl

/-- Value of the flags member once the three flags were set in declaration
order: the three low bits are set, the others are kept. -/
theorem flagSetAll_declaration_order (g : Nat) (hg : g < U8_RANGE) :
    flagSetAll g [NodeFlag.lockedPower, NodeFlag.lockedClock, NodeFlag.idleDone]
      = (g ||| 7) := by
  apply Nat.eq_of_testBit_eq
  intro i
  show (flagSet (flagSet (flagSet g NodeFlag.lockedPower) NodeFlag.lockedClock)
    NodeFlag.idleDone).testBit i = _
  rw [Nat.testBit_or, show (7 : Nat) = 2 ^ 3 - 1 from rfl, Nat.testBit_two_pow_sub_one]
  simp only [testBit_flagSet, mask_testBit]
  by_cases h8 : i < 8
  · by_cases h0 : i = 0
    · simp [h0]
    · by_cases h1 : i = 1
      · simp [h1]
      · by_cases h2 : i = 2
        · simp [h2]
        · have h3 : ¬ i < 3 := by omega
          simp [h8, h0, h1, h2, h3]
  · have h3 : ¬ i < 3 := by omega
    simp [h8, h3, testBit_u8_high g hg i h8]

/-- A flag reads as set in any value that contains the three low bits. -/
theorem flagGet_or_seven_ne_zero (g : Nat) (x : NodeFlag) :
    flagGet (g ||| 7) x ≠ 0 := by
  intro h
  have hbit : ∀ i : Nat, (flagGet (g ||| 7) x).testBit i = false := by
    intro i; rw [h]; exact Nat.zero_testBit i
  unfold flagGet at hbit
  cases x
  · have h7 : Nat.testBit 7 0 = true := by decide
    have hk := hbit 0
    rw [Nat.testBit_and, Nat.testBit_or, mask_testBit, h7] at hk
    simp at hk
  · have h7 : Nat.testBit 7 1 = true := by decide
    have hk := hbit 1
    rw [Nat.testBit_and, Nat.testBit_or, mask_testBit, h7] at hk
    simp at hk
  · have h7 : Nat.testBit 7 2 = true := by decide
    have hk := hbit 2
    rw [Nat.testBit_and, Nat.testBit_or, mask_testBit, h7] at hk
    simp at hk

/-- C3: for every initial 8-bit flags value and any two of the six orders in
which power-locked, clock-locked and idle-done can be set, the final flags
value is the same, and each of the three flags reads as set in it. -/
theorem flag_set_order_irrelevant (f : Nat) (o₁ o₂ : List NodeFlag)
    (hf : f < U8_RANGE)
    (h₁ : o₁.Perm [NodeFlag.lockedPower, NodeFlag.lockedClock, NodeFlag.idleDone])
    (h₂ : o₂.Perm [NodeFlag.lockedPower, NodeFlag.lockedClock, NodeFlag.idleDone]) :
    flagSetAll f o₁ = flagSetAll f o₂ ∧
    flagSetAll f o₁ = (f ||| 7) ∧
    (∀ x : NodeFlag, flagGet (flagSetAll f o₁) x ≠ 0) := by
  have key : ∀ o : List NodeFlag,
      o.Perm [NodeFlag.lockedPower, NodeFlag.lockedClock, NodeFlag.idleDone] →
      flagSetAll f o =
        flagSetAll f [NodeFlag.lockedPower, NodeFlag.lockedClock, NodeFlag.idleDone] := by
    intro o ho
    unfold flagSetAll
    exact List.Perm.foldl_eq' ho (fun a _ b _ z => flagSet_comm z a b) f
  refine ⟨?_, ?_, ?_⟩
  · rw [key o₁ h₁, key o₂ h₂]
  · rw [key o₁ h₁]; exact flagSetAll_declaration_order f hf
  · intro x
    rw [key o₁ h₁, flagSetAll_declaration_order f hf]
    exact flagGet_or_seven_ne_zero f x

/-- C3 at a concrete input: from flags 0, the orders idle, clock, power and
power, clock, idle both end in 7. -/
theorem flag_set_order_irrelevant_witness :
    flagSetAll 0 [NodeFlag.idleDone, NodeFlag.lockedClock, NodeFlag.lockedPower]
      = flagSetAll 0 [NodeFlag.lockedPower, NodeFlag.lockedClock, NodeFlag.idleDone] ∧
    flagSetAll 0 [NodeFlag.idleDone, NodeFlag.lockedClock, NodeFlag.lockedPower] = 7 :=
  ⟨(flag_set_order_irrelevant 0
      [NodeFlag.idleDone, NodeFlag.lockedClock, NodeFlag.lockedPower]
      [NodeFlag.lockedPower, NodeFlag.lockedClock, NodeFlag.idleDone]
      (by decide) (by decide) (List.Perm.refl _)).1,
   (flag_set_order_irrelevant 0
      [NodeFlag.idleDone, NodeFlag.lockedClock, NodeFlag.lockedPower]
      [NodeFlag.lockedPower, NodeFlag.lockedClock, NodeFlag.idleDone]
      (by decide) (by decide) (List.Perm.refl _)).2.1⟩

/-- Reading a flag back from the OR of a subset tells membership. -/
theorem subsetMask_readback :
    ∀ (s : Finset NodeFlag) (x : NodeFlag), flagGet (subsetMask s) x ≠ 0 ↔ x ∈ s := by
  decide

/-- C4: the map sending each of the 8 subsets of the three flags to the OR
of its masks is injective, every result fits the u8 flags member, and each
flag is read back from the stored value exactly when it is in the subset. -/
theorem flag_subsets_representable :
    Fintype.card (Finset NodeFlag) = 8 ∧
    Function.Injective subsetMask ∧
    (∀ s : Finset NodeFlag, subsetMask s < U8_RANGE) ∧
    (∀ (s : Finset NodeFlag) (x : NodeFlag), flagGet (subsetMask s) x ≠ 0 ↔ x ∈ s) := by
  refine ⟨by decide, ?_, by decide, subsetMask_readback⟩
  intro s t hst
  ext x
  rw [← subsetMask_readback s x, ← subsetMask_readback t x, hst]

/-- C5: for every node id and every implementation of PmNodeGetDerived
(whatever it returns, NULL included), each typed accessor returns what
PmNodeGetDerived returns for the class tag of that accessor and the
unmodified id. -/
theorem typed_accessors_wrap_PmNodeGetDerived {α : Type}
    (getDerived : Nat → Nat → α) (nodeId : Nat) :
    PmNodeGetSlave getDerived nodeId = getDerived NODE_CLASS_SLAVE nodeId ∧
    PmNodeGetPower getDerived nodeId = getDerived NODE_CLASS_POWER nodeId ∧
    PmNodeGetProc getDerived nodeId = getDerived NODE_CLASS_PROC nodeId ∧
    PmNodeGetPll getDerived nodeId = getDerived NODE_CLASS_PLL nodeId :=
  ⟨rfl, rfl, rfl, rfl⟩

/-- C8 as stated fails: the function-pointer members of PmNodeClass are not
seven in number. -/
theorem capability_table_not_seven : ¬ (Fintype.card PmNodeClassOp = 7) := by
  decide

/-- C8, amended: the capability table of a node class consists of exactly
eight operations, and a class is exactly such a table together with bucket,
bucketSize and id (every function-pointer member is one of the eight, and
the eight are independent members). -/
theorem capability_table_eight :
    Fintype.card PmNodeClassOp = 8 ∧ Function.Bijective PmNodeClass.split := by
  refine ⟨by decide, ?_, ?_⟩
  · intro a b hab
    unfold PmNodeClass.split at hab
    have hop : a.op = b.op := congrArg Prod.fst hab
    have h1 := congrFun hop PmNodeClassOp.clearConfig
    have h2 := congrFun hop PmNodeClassOp.construct
    have h3 := congrFun hop PmNodeClassOp.getWakeUpLatency
    have h4 := congrFun hop PmNodeClassOp.getPowerData
    have h5 := congrFun hop PmNodeClassOp.forceDown
    have h6 := congrFun hop PmNodeClassOp.init
    have h7 := congrFun hop PmNodeClassOp.isUsable
    have h8 := congrFun hop PmNodeClassOp.getPerms
    have hb : a.bucket = b.bucket := congrArg (fun t => t.2.1) hab
    have hs : a.bucketSize = b.bucketSize := congrArg (fun t => t.2.2.1) hab
    have hi : a.id = b.id := congrArg (fun t => t.2.2.2) hab
    cases a
    cases b
    simp only [PmNodeClass.op] at h1 h2 h3 h4 h5 h6 h7 h8
    simp only at hb hs hi
    subst h1 h2 h3 h4 h5 h6 h7 h8 hb hs hi
    rfl
  · rintro ⟨g, b, n, i⟩
    refine ⟨⟨g .clearConfig, g .construct, g .getWakeUpLatency, g .getPowerData,
      g .forceDown, g .init, g .isUsable, g .getPerms, b, n, i⟩, ?_⟩
    unfold PmNodeClass.split
    have hg : (PmNodeClass.op ⟨g .clearConfig, g .construct, g .getWakeUpLatency,
        g .getPowerData, g .forceDown, g .init, g .isUsable, g .getPerms, b, n, i⟩) = g := by
      funext o
      cases o <;> rfl
    rw [hg]

/-- C6 (against the modelled PmNodeGetPowerInfo): for every node, when
currState is not smaller than powerInfoCnt the result is the InvalidState
error and no powerInfo entry is read; when currState is smaller than
powerInfoCnt (and the table has that many entries) the result is
powerInfo[currState], the only entry read. -/
theorem power_info_bounds_checked (node : PmNode) :
    (node.powerInfoCnt ≤ node.currState →
      PmNodeGetPowerInfo node = (Except.error PmError.InvalidState, [])) ∧
    (∀ (h : node.currState < node.powerInfoCnt) (hlen : node.powerInfoCnt ≤ node.powerInfo.length),
      PmNodeGetPowerInfo node =
        (Except.ok (node.powerInfo.get ⟨node.currState, Nat.lt_of_lt_of_le h hlen⟩),
          [node.currState])) := by
  constructor
  · intro h
    unfold PmNodeGetPowerInfo
    rw [if_neg (by omega)]
  · intro h hlen
    unfold PmNodeGetPowerInfo
    rw [if_pos h]
    have hlt : node.currState < node.powerInfo.length := Nat.lt_of_lt_of_le h hlen
    simp [List.getD, List.getElem?_eq_getElem hlt]

/-- C6 at the input of the specification: a four-entry powerInfo with
currState 5 gives InvalidState and reads nothing, and with currState 2 gives
entry 2 of the table. -/
theorem power_info_bounds_checked_witness :
    PmNodeGetPowerInfo (sampleNode sampleProcClass 1 5 1000)
      = (Except.error PmError.InvalidState, []) ∧
    PmNodeGetPowerInfo (sampleNode sampleProcClass 1 2 1000) = (Except.ok 30, [2]) :=
  ⟨(power_info_bounds_checked (sampleNode sampleProcClass 1 5 1000)).1 (by decide),
   (power_info_bounds_checked (sampleNode sampleProcClass 1 2 1000)).2 (by decide) (by decide)⟩

/-- A bucket search that succeeds returns a bucket entry whose node has the
id searched for. -/
theorem bucketFind_some (mem : Ptr → Option PmNode) (c : PmNodeClass) (nodeId : Nat)
    (p : Ptr) (h : bucketFind mem c nodeId = some p) :
    p ∈ c.bucket.take c.bucketSize ∧ ∃ n, mem p = some n ∧ n.nodeId = nodeId := by
  unfold bucketFind at h
  refine ⟨List.mem_of_find?_eq_some h, ?_⟩
  have hp := List.find?_some h
  cases hm : mem p with
  | none => rw [hm] at hp; exact absurd hp (by simp)
  | some n =>
    rw [hm] at hp
    exact ⟨n, rfl, by simpa using hp⟩

/-- With pairwise distinct class tags, the search for the tag of a class of
the list returns that class. -/
theorem find_class_by_tag (classes : List PmNodeClass)
    (htags : (classes.map PmNodeClass.id).Nodup) (c : PmNodeClass) (hc : c ∈ classes) :
    classes.find? (fun k => k.id == c.id) = some c := by
  induction classes with
  | nil => exact absurd hc (List.not_mem_nil c)
  | cons k ks ih =>
    rw [List.map_cons, List.nodup_cons] at htags
    rcases List.mem_cons.mp hc with hck | hck
    · subst hck
      simp [List.find?_cons]
    · have hne : k.id ≠ c.id := by
        intro hkc
        exact htags.1 (hkc ▸ List.mem_map_of_mem PmNodeClass.id hck)
      rw [List.find?_cons]
      have hb : (k.id == c.id) = false := by
        rw [beq_eq_false_iff_ne]; exact hne
      rw [hb]
      exact ih htags.2 hck

/-- C7 (against the modelled registry lookups): in a registry whose classes
have pairwise distinct tags and whose buckets hold nodes of their own class,
for every id that PmGetNodeById finds, with c the class tag of the node it
returns, PmNodeGetDerived(c, id) is found and is the derived pointer of that
same node: the class-restricted search stops at the same node pointer. -/
theorem lookups_resolve_same_node (classes : List PmNodeClass)
    (mem : Ptr → Option PmNode) (nodeId : Nat) (p : Ptr)
    (htags : (classes.map PmNodeClass.id).Nodup)
    (hown : ∀ c ∈ classes, ∀ q ∈ c.bucket.take c.bucketSize, ∀ m : PmNode,
      mem q = some m → m.nodeClass.id = c.id)
    (hfound : PmGetNodeById classes mem nodeId = some p) :
    ∃ n : PmNode, mem p = some n ∧ n.nodeId = nodeId ∧
      PmNodeGetDerived classes mem n.nodeClass.id nodeId = some n.derived ∧
      ∃ c ∈ classes, c.id = n.nodeClass.id ∧ bucketFind mem c nodeId = some p := by
  unfold PmGetNodeById at hfound
  obtain ⟨c, hc, hcp⟩ := List.exists_of_findSome?_eq_some hfound
  obtain ⟨hmem, n, hn, hid⟩ := bucketFind_some mem c nodeId p hcp
  have hcls : n.nodeClass.id = c.id := hown c hc p hmem n hn
  refine ⟨n, hn, hid, ?_, c, hc, hcls.symm, hcp⟩
  unfold PmNodeGetDerived
  rw [hcls, find_class_by_tag classes htags c hc]
  simp only [hcp, hn, Option.map_some']

/-- C7 on the sample registry: node id 2 is the power node at address 200,
and the power-class lookup of id 2 gives its derived pointer 2000. -/
theorem lookups_resolve_same_node_witness :
    PmGetNodeById sampleClasses sampleMem 2 = some 200 ∧
    ∃ n : PmNode, sampleMem 200 = some n ∧ n.nodeId = 2 ∧
      PmNodeGetDerived sampleClasses sampleMem n.nodeClass.id 2 = some n.derived ∧
      ∃ c ∈ sampleClasses, c.id = n.nodeClass.id ∧ bucketFind sampleMem c 2 = some 200 :=
  ⟨by decide,
   lookups_resolve_same_node sampleClasses sampleMem 2 200 (by decide)
    (by
      intro c hc q hq m hm
      simp only [sampleClasses, List.mem_cons, List.mem_singleton, List.not_mem_nil,
        or_false] at hc
      rcases hc with rfl | rfl
      · simp only [sampleProcClass, sampleClass, List.length_singleton, List.take_succ_cons,
          List.take_zero, List.mem_singleton] at hq
        subst hq
        simp only [sampleMem, if_true, Option.some.injEq] at hm
        subst hm
        rfl
      · simp only [samplePowerClass, sampleClass, List.length_singleton, List.take_succ_cons,
          List.take_zero, List.mem_singleton] at hq
        subst hq
        simp only [sampleMem, show ¬ (200 : Nat) = 100 by decide, if_false, if_true,
          Option.some.injEq] at hm
        subst hm
        rfl)
    (by decide)⟩

/-- C9: the four class tags are pairwise distinct, also after conversion to
the u8 class id member; hence for every node at most one of NODE_IS_PROC,
NODE_IS_POWER, NODE_IS_SLAVE is true, and for a node whose class id is the
PLL tag all three are false. -/
theorem class_tags_distinct_and_exclusive (n : PmNode) :
    [NODE_CLASS_PROC % U8_RANGE, NODE_CLASS_POWER % U8_RANGE,
      NODE_CLASS_SLAVE % U8_RANGE, NODE_CLASS_PLL % U8_RANGE].Nodup ∧
    [NODE_CLASS_PROC, NODE_CLASS_POWER, NODE_CLASS_SLAVE, NODE_CLASS_PLL].Nodup ∧
    ([NODE_IS_PROC n, NODE_IS_POWER n, NODE_IS_SLAVE n].count true ≤ 1) ∧
    (n.nodeClass.id = NODE_CLASS_PLL % U8_RANGE →
      NODE_IS_PROC n = false ∧ NODE_IS_POWER n = false ∧ NODE_IS_SLAVE n = false) := by
  refine ⟨by decide, by decide, ?_, ?_⟩
  · unfold NODE_IS_PROC NODE_IS_POWER NODE_IS_SLAVE
      NODE_CLASS_PROC NODE_CLASS_POWER NODE_CLASS_SLAVE
    by_cases h1 : n.nodeClass.id = 1
    · simp [h1]
    · by_cases h2 : n.nodeClass.id = 2
      · simp [h2]
      · by_cases h3 : n.nodeClass.id = 3
        · simp [h3]
        · have e1 : ((1 : Nat) == n.nodeClass.id) = false := by
            rw [beq_eq_false_iff_ne]; exact fun h => h1 h.symm
          have e2 : ((2 : Nat) == n.nodeClass.id) = false := by
            rw [beq_eq_false_iff_ne]; exact fun h => h2 h.symm
          have e3 : ((3 : Nat) == n.nodeClass.id) = false := by
            rw [beq_eq_false_iff_ne]; exact fun h => h3 h.symm
          simp [e1, e2, e3]
  · intro h
    unfold NODE_IS_PROC NODE_IS_POWER NODE_IS_SLAVE
    rw [h]
    exact ⟨by decide, by decide, by decide⟩

/-- C9 at a concrete node: a PLL node is neither processor, power nor slave. -/
theorem class_tags_distinct_and_exclusive_witness :
    NODE_IS_PROC (sampleNode (sampleClass NODE_CLASS_PLL []) 50 1 0) = false ∧
    NODE_IS_POWER (sampleNode (sampleClass NODE_CLASS_PLL []) 50 1 0) = false ∧
    NODE_IS_SLAVE (sampleNode (sampleClass NODE_CLASS_PLL []) 50 1 0) = false :=
  (class_tags_distinct_and_exclusive (sampleNode (sampleClass NODE_CLASS_PLL []) 50 1 0)).2.2.2
    (by decide)

end Pmufw
